import Mathlib

/-!
Verification of the two numeric models of the SC4052 assignment scripts:
the prediction-horizon performance model (experiment 1) and the
fairness/divergence collapse model (experiment 2).  Python float
arithmetic is embedded as exact rational arithmetic; every constant and
branch mirrors the source.
-/

namespace SatCC

/-! ### Experiment 1: prediction horizon (experiment1_prediction_horizon.py) -/

structure PerfMetrics where
  throughput : ℚ
  latency : ℚ
  prediction_error : ℚ
deriving DecidableEq

/-- Embedding of `simulate_prediction_horizon(tau_pred)`. -/
def simulate_prediction_horizon (tau_pred : ℚ) : PerfMetrics :=
  let link_capacity_mbps : ℚ := 1000
  let base_throughput_mbps : ℚ := link_capacity_mbps * 0.95
  let base_latency_ms : ℚ := 7.0
  let base_error_ms : ℚ := 0.4
  let prediction_error_ms : ℚ := base_error_ms * (1 + tau_pred / 60) ^ 2
  let link_efficiency : ℚ :=
    if tau_pred < 20 then
      0.80 + (tau_pred / 20) * 0.15
    else if tau_pred < 60 then
      0.95
    else
      0.95 - (tau_pred - 60) / 200
  let error_penalty : ℚ := prediction_error_ms / 10
  let throughput_mbps : ℚ := base_throughput_mbps * link_efficiency * (1 - error_penalty)
  let latency_ms : ℚ := base_latency_ms + prediction_error_ms * 2
  { throughput := throughput_mbps, latency := latency_ms,
    prediction_error := prediction_error_ms }

/-- The fixed horizon inputs of the driver. -/
def horizons : List ℚ := [10, 30, 45, 60, 90]

structure HorizonResult where
  horizon : ℚ
  throughput : ℚ
  latency : ℚ
  prediction_error : ℚ
deriving DecidableEq

/-- The `results` list built by the driver loop. -/
def results : List HorizonResult :=
  horizons.map fun tau =>
    let metrics := simulate_prediction_horizon tau
    { horizon := tau, throughput := metrics.throughput,
      latency := metrics.latency, prediction_error := metrics.prediction_error }

/-- Semantics of Python's builtin `max(iterable, key=...)`: `none` on the
empty list (Python raises `ValueError` there), otherwise a left fold that
replaces the running maximum only on a strict key increase, so the first
occurrence of the maximal key wins ties. -/
def pymax {α : Type} (key : α → ℚ) : List α → Option α
  | [] => none
  | x :: xs => some (xs.foldl (fun best y => if key best < key y then y else best) x)

/-- `optimal = max(results, key=lambda x: x['throughput'])`. -/
def optimal : Option HorizonResult := pymax (fun r => r.throughput) results

/-! ### Experiment 2: fairness collapse (experiment2_fairness_divergence.py) -/

structure CycleResult where
  cycle : ℤ
  divergence : ℚ
  fairness : ℚ
deriving DecidableEq

/-- Embedding of `simulate_fairness_collapse(cycle_num, with_mitigation)`.
The Python function performs no input validation: every integer input,
negative ones included, falls through the branch chain and returns a dict. -/
def simulate_fairness_collapse (cycle_num : ℤ) (with_mitigation : Bool) : CycleResult :=
  if with_mitigation then
    { cycle := cycle_num
      divergence := min (0.05 + (cycle_num : ℚ) * 0.0014) 0.20
      fairness := max (0.96 - (cycle_num : ℚ) * 0.0005) 0.90 }
  else if cycle_num = 0 then
    { cycle := cycle_num, divergence := 0.0, fairness := 0.96 }
  else if cycle_num ≤ 50 then
    { cycle := cycle_num
      divergence := (cycle_num : ℚ) * 0.0084
      fairness := 0.96 - (cycle_num : ℚ) * 0.005 }
  else if cycle_num ≤ 65 then
    { cycle := cycle_num
      divergence := 0.42 + ((cycle_num : ℚ) - 50) * 0.0073
      fairness := 0.71 - ((cycle_num : ℚ) - 50) * 0.0153 }
  else
    { cycle := cycle_num
      divergence := 0.53 + ((cycle_num : ℚ) - 65) * 0.0169
      fairness := max (0.48 - ((cycle_num : ℚ) - 65) * 0.0083) 0.15 }

/-- The fixed cycle inputs of the driver. -/
def key_cycles : List ℤ := [0, 50, 65, 100]

/-- The unmitigated sample list built by the driver loop. -/
def results_no_mitigation : List CycleResult :=
  key_cycles.map fun cycle => simulate_fairness_collapse cycle false

/-- `results_no_mitigation[-1]`, the cycle-100 unmitigated sample. -/
def result_no_mitigation_100 : CycleResult :=
  results_no_mitigation.getLastD { cycle := 0, divergence := 0, fairness := 0 }

/-- `simulate_fairness_collapse(100, with_mitigation=True)`. -/
def result_with_mitigation_100 : CycleResult := simulate_fairness_collapse 100 true

/-- `improvement_D` as computed on lines 123-124 of the source:
relative divergence reduction against the unmitigated baseline. -/
def improvement_D : ℚ :=
  (result_no_mitigation_100.divergence - result_with_mitigation_100.divergence) /
    result_no_mitigation_100.divergence * 100

/-- `improvement_J` as computed on lines 125-126 of the source: the
denominator is the unmitigated (baseline) fairness. -/
def improvement_J : ℚ :=
  (result_with_mitigation_100.fairness - result_no_mitigation_100.fairness) /
    result_no_mitigation_100.fairness * 100

/-- The spec's formula for the fairness improvement, written from its words
for comparison with the code's `improvement_J`:
`(mitigated.fairness - baseline.fairness) / mitigated.fairness * 100`,
with the mitigated fairness in the denominator. -/
def fairness_improvement_pct_spec : ℚ :=
  (result_with_mitigation_100.fairness - result_no_mitigation_100.fairness) /
    result_with_mitigation_100.fairness * 100

/-! ### Helper lemmas -/

/-- Fold characterization of Python's `max`: the fold starting at `x` over
`xs` yields the first element of `x :: xs` attaining the maximal key.  The
decomposition `l₁ ++ m :: l₂` with strict bounds on `l₁` and weak bounds on
`l₂` pins down that first occurrence. -/
theorem pymax_foldl_spec {α : Type} (key : α → ℚ) :
    ∀ (xs : List α) (x : α),
      ∃ m l₁ l₂,
        xs.foldl (fun best y => if key best < key y then y else best) x = m ∧
        x :: xs = l₁ ++ m :: l₂ ∧
        (∀ y ∈ l₁, key y < key m) ∧ (∀ y ∈ l₂, key y ≤ key m) := by
  intro xs
  induction xs with
  | nil =>
    intro x
    exact ⟨x, [], [], rfl, rfl, by simp, by simp⟩
  | cons y ys ih =>
    intro x
    by_cases h : key x < key y
    · obtain ⟨m, l₁, l₂, hfold, hdec, h₁, h₂⟩ := ih y
      have hy : key y ≤ key m := by
        have hmem : y ∈ l₁ ++ m :: l₂ := by
          rw [← hdec]; exact List.mem_cons_self y ys
        rcases List.mem_append.mp hmem with hy1 | hy2
        · exact le_of_lt (h₁ y hy1)
        · rcases List.mem_cons.mp hy2 with heq | hy3
          · exact le_of_eq (congrArg key heq)
          · exact h₂ y hy3
      refine ⟨m, x :: l₁, l₂, ?_, ?_, ?_, h₂⟩
      · simpa [List.foldl_cons, if_pos h] using hfold
      · simp [List.cons_append, ← hdec]
      · intro z hz
        rcases List.mem_cons.mp hz with rfl | hz1
        · exact lt_of_lt_of_le h hy
        · exact h₁ z hz1
    · obtain ⟨m, l₁, l₂, hfold, hdec, h₁, h₂⟩ := ih x
      have hyx : key y ≤ key x := not_lt.mp h
      have hfold2 : (y :: ys).foldl (fun best z => if key best < key z then z else best) x
          = m := by
        simpa [List.foldl_cons, if_neg h] using hfold
      cases l₁ with
      | nil =>
        have hdec2 : x :: ys = m :: l₂ := by simpa using hdec
        have hx : x = m := (List.cons_eq_cons.mp hdec2).1
        have hys : ys = l₂ := (List.cons_eq_cons.mp hdec2).2
        refine ⟨m, [], y :: l₂, hfold2, ?_, by simp, ?_⟩
        · simp [← hx, ← hys]
        · intro z hz
          rcases List.mem_cons.mp hz with rfl | hz1
          · exact le_trans hyx (le_of_eq (congrArg key hx))
          · exact h₂ z hz1
      | cons a l₁t =>
        have hdec2 : x :: ys = a :: (l₁t ++ m :: l₂) := by simpa using hdec
        have hx : x = a := (List.cons_eq_cons.mp hdec2).1
        have hys : ys = l₁t ++ m :: l₂ := (List.cons_eq_cons.mp hdec2).2
        have hxm : key x < key m := by
          rw [hx]; exact h₁ a (List.mem_cons_self a l₁t)
        refine ⟨m, x :: y :: l₁t, l₂, hfold2, ?_, ?_, h₂⟩
        · simp [hys]
        · intro z hz
          rcases List.mem_cons.mp hz with rfl | hz1
          · exact hxm
          · rcases List.mem_cons.mp hz1 with rfl | hz2
            · exact lt_of_le_of_lt hyx hxm
            · exact h₁ z (List.mem_cons_of_mem a hz2)

/-- Mitigated branch of `simulate_fairness_collapse`. -/
theorem sfc_mitigated_eq (z : ℤ) :
    simulate_fairness_collapse z true =
      { cycle := z, divergence := min (0.05 + (z : ℚ) * 0.0014) 0.20,
        fairness := max (0.96 - (z : ℚ) * 0.0005) 0.90 } := rfl

/-- Unmitigated cycle-0 branch. -/
theorem sfc_cycle0_eq :
    simulate_fairness_collapse 0 false =
      { cycle := 0, divergence := 0.0, fairness := 0.96 } := rfl

/-- Unmitigated Phase-1 branch (`cycle_num != 0` and `cycle_num <= 50`). -/
theorem sfc_phase1_eq {z : ℤ} (h1 : z ≠ 0) (h2 : z ≤ 50) :
    simulate_fairness_collapse z false =
      { cycle := z, divergence := (z : ℚ) * 0.0084,
        fairness := 0.96 - (z : ℚ) * 0.005 } := by
  unfold simulate_fairness_collapse
  rw [if_neg (by simp : ¬(false = true)), if_neg h1, if_pos h2]

/-- Unmitigated Phase-2 branch (`50 < cycle_num <= 65`). -/
theorem sfc_phase2_eq {z : ℤ} (h1 : 50 < z) (h2 : z ≤ 65) :
    simulate_fairness_collapse z false =
      { cycle := z, divergence := 0.42 + ((z : ℚ) - 50) * 0.0073,
        fairness := 0.71 - ((z : ℚ) - 50) * 0.0153 } := by
  unfold simulate_fairness_collapse
  rw [if_neg (by simp : ¬(false = true)), if_neg (by omega : ¬(z = 0)),
    if_neg (by omega : ¬(z ≤ 50)), if_pos h2]

/-- Unmitigated Phase-3 branch (`cycle_num > 65`). -/
theorem sfc_phase3_eq {z : ℤ} (h1 : 65 < z) :
    simulate_fairness_collapse z false =
      { cycle := z, divergence := 0.53 + ((z : ℚ) - 65) * 0.0169,
        fairness := max (0.48 - ((z : ℚ) - 65) * 0.0083) 0.15 } := by
  unfold simulate_fairness_collapse
  rw [if_neg (by simp : ¬(false = true)), if_neg (by omega : ¬(z = 0)),
    if_neg (by omega : ¬(z ≤ 50)), if_neg (by omega : ¬(z ≤ 65))]

/-- One step of the unmitigated fairness sequence never increases, at every
non-negative cycle, across the phase boundaries at 0, 50 and 65 included. -/
theorem fairness_succ_le {z : ℤ} (hz : 0 ≤ z) :
    (simulate_fairness_collapse (z + 1) false).fairness ≤
      (simulate_fairness_collapse z false).fairness := by
  rcases eq_or_lt_of_le hz with h0 | hpos
  · rw [← h0, sfc_cycle0_eq, sfc_phase1_eq (by norm_num) (by norm_num)]
    norm_num
  · by_cases h49 : z ≤ 49
    · rw [sfc_phase1_eq (by omega) (by omega), sfc_phase1_eq (by omega) (by omega)]
      have hc : ((z + 1 : ℤ) : ℚ) = (z : ℚ) + 1 := by push_cast; ring
      simp only [hc]
      linarith
    · by_cases h50 : z = 50
      · subst h50
        rw [sfc_phase2_eq (by norm_num) (by norm_num),
          sfc_phase1_eq (by norm_num) (by norm_num)]
        norm_num
      · by_cases h64 : z ≤ 64
        · rw [sfc_phase2_eq (by omega) (by omega), sfc_phase2_eq (by omega) (by omega)]
          have hc : ((z + 1 : ℤ) : ℚ) = (z : ℚ) + 1 := by push_cast; ring
          simp only [hc]
          linarith
        · by_cases h65 : z = 65
          · subst h65
            rw [sfc_phase3_eq (by norm_num), sfc_phase2_eq (by norm_num) (by norm_num)]
            simp only
            rw [max_le_iff]
            norm_num
          · rw [sfc_phase3_eq (by omega), sfc_phase3_eq (by omega)]
            simp only
            refine max_le_max ?_ le_rfl
            have hc : ((z + 1 : ℤ) : ℚ) = (z : ℚ) + 1 := by push_cast; ring
            rw [hc]
            linarith

/-- On a non-empty list, `pymax` returns the first element attaining the
maximal key. -/
theorem pymax_spec {α : Type} (key : α → ℚ) (l : List α) (hl : l ≠ []) :
    ∃ m l₁ l₂, pymax key l = some m ∧ l = l₁ ++ m :: l₂ ∧
      (∀ y ∈ l₁, key y < key m) ∧ (∀ y ∈ l₂, key y ≤ key m) := by
  cases l with
  | nil => exact absurd rfl hl
  | cons x xs =>
    obtain ⟨m, l₁, l₂, hfold, hdec, h₁, h₂⟩ := pymax_foldl_spec key xs x
    exact ⟨m, l₁, l₂, by simp [pymax, hfold], hdec, h₁, h₂⟩

/-- Sample pair with tied throughputs, used to exercise the selector's
tie-breaking. -/
def tie_sample_a : HorizonResult :=
  { horizon := 10, throughput := 5, latency := 0, prediction_error := 0 }

/-- Second sample of the tied pair. -/
def tie_sample_b : HorizonResult :=
  { horizon := 20, throughput := 5, latency := 0, prediction_error := 0 }

/-! ### Claim theorems -/

/-- Claim C1, counterexample: the code's `improvement_J` divides by the
baseline (unmitigated) fairness, not by the mitigated fairness as the
claim's formula does, and its value is nowhere near 79.12%. -/
theorem improvement_J_spec_formula_counterexample :
    improvement_J ≠ fairness_improvement_pct_spec ∧
      ¬(|improvement_J - 7912/100| ≤ 1/100) := by
  constructor <;>
    norm_num [improvement_J, fairness_improvement_pct_spec, result_with_mitigation_100,
      result_no_mitigation_100, results_no_mitigation, key_cycles,
      simulate_fairness_collapse, List.getLastD, abs_le]

/-- Claim C1, amended: the fairness improvement computed by the code at the
cycle-100 pair uses the baseline fairness (0.1895) as denominator and equals
144100/379 ≈ 380.21%; the spec's mitigated-denominator formula would instead
give 7205/91 ≈ 79.18% on the same pair. -/
theorem improvement_J_baseline_denominator :
    improvement_J = 144100/379 ∧ fairness_improvement_pct_spec = 7205/91 := by
  constructor <;>
    norm_num [improvement_J, fairness_improvement_pct_spec, result_with_mitigation_100,
      result_no_mitigation_100, results_no_mitigation, key_cycles,
      simulate_fairness_collapse, List.getLastD]

/-- Claim C2: the unmitigated model hits the documented anchor (0.42, 0.71)
at cycle 50 exactly, but at cycle 65 it returns (0.5295, 0.4805) and at
cycle 100 it returns (1.1215, 0.1895), missing the documented anchors
(0.53, 0.48) and (1.12, 0.19) by far more than 1e-9: the rounded per-cycle
rates 0.0073/0.0153/0.0169/0.0083 do not reproduce the anchor points the
source comments state. -/
theorem unmitigated_anchor_values :
    simulate_fairness_collapse 50 false =
      { cycle := 50, divergence := 21/50, fairness := 71/100 } ∧
    simulate_fairness_collapse 65 false =
      { cycle := 65, divergence := 1059/2000, fairness := 961/2000 } ∧
    simulate_fairness_collapse 100 false =
      { cycle := 100, divergence := 2243/2000, fairness := 379/2000 } ∧
    ¬(|(simulate_fairness_collapse 65 false).divergence - 53/100| ≤ 1/10^9) ∧
    ¬(|(simulate_fairness_collapse 100 false).fairness - 19/100| ≤ 1/10^9) := by
  refine ⟨?_, ?_, ?_, ?_, ?_⟩ <;> norm_num [simulate_fairness_collapse, abs_le]

/-- Claim C3, counterexample: at cycle 0 the mitigated and unmitigated
paths do not return the same pair — the mitigated divergence is 0.05, the
unmitigated one 0.0. -/
theorem cycle0_flag_counterexample :
    simulate_fairness_collapse 0 true ≠ simulate_fairness_collapse 0 false ∧
    (simulate_fairness_collapse 0 true).divergence = 1/20 ∧
    (simulate_fairness_collapse 0 false).divergence = 0 := by
  refine ⟨?_, ?_, ?_⟩ <;> norm_num [simulate_fairness_collapse]

/-- Claim C3, amended: at cycle 0 the unmitigated path returns divergence
0.0 and fairness 0.96; the mitigated path returns divergence 0.05 and
fairness 0.96 — fairness agrees, divergence differs by the 0.05 residual. -/
theorem cycle0_values :
    simulate_fairness_collapse 0 false =
      { cycle := 0, divergence := 0, fairness := 24/25 } ∧
    simulate_fairness_collapse 0 true =
      { cycle := 0, divergence := 1/20, fairness := 24/25 } ∧
    (simulate_fairness_collapse 0 true).fairness =
      (simulate_fairness_collapse 0 false).fairness := by
  refine ⟨?_, ?_, ?_⟩ <;> norm_num [simulate_fairness_collapse]

/-- Claim C4: over the fixed horizons [10, 30, 45, 60, 90] the throughput
argmax is the tau = 30 sample (throughput 821.275 Mbps), whose throughput
strictly exceeds that of each of the four other horizons. -/
theorem optimal_horizon_is_30 :
    optimal = some
      { horizon := 30, throughput := 32851/40, latency := 44/5,
        prediction_error := 9/10 } ∧
    (simulate_prediction_horizon 30).throughput >
      (simulate_prediction_horizon 10).throughput ∧
    (simulate_prediction_horizon 30).throughput >
      (simulate_prediction_horizon 45).throughput ∧
    (simulate_prediction_horizon 30).throughput >
      (simulate_prediction_horizon 60).throughput ∧
    (simulate_prediction_horizon 30).throughput >
      (simulate_prediction_horizon 90).throughput := by
  refine ⟨?_, ?_, ?_, ?_, ?_⟩ <;>
    norm_num [optimal, pymax, results, horizons, simulate_prediction_horizon]

/-- Claim C5: for every non-negative cycle the mitigated path is the single
phase-free formula D = min(0.05 + 0.0014 c, 0.20), J = max(0.96 - 0.0005 c,
0.90); at cycle 100 it returns exactly (0.19, 0.91). -/
theorem mitigated_single_formula :
    (∀ c : ℕ, simulate_fairness_collapse (c : ℤ) true =
      { cycle := (c : ℤ), divergence := min (0.05 + (c : ℚ) * 0.0014) 0.20,
        fairness := max (0.96 - (c : ℚ) * 0.0005) 0.90 }) ∧
    simulate_fairness_collapse 100 true =
      { cycle := 100, divergence := 19/100, fairness := 91/100 } := by
  constructor
  · intro c
    rw [sfc_mitigated_eq]
    simp only [Int.cast_natCast]
  · rw [sfc_mitigated_eq]
    norm_num

/-- Claim C6: the code computes the divergence improvement as
(baseline.D - mitigated.D) / baseline.D * 100, but its value at the
cycle-100 pair is 186300/2243 ≈ 83.058%, not ≈ 83.04%: the baseline
divergence there is 1.1215, not the 1.12 the source comments document. -/
theorem improvement_D_value :
    improvement_D = 186300/2243 ∧ ¬(|improvement_D - 8304/100| ≤ 1/100) := by
  constructor <;>
    norm_num [improvement_D, result_with_mitigation_100, result_no_mitigation_100,
      results_no_mitigation, key_cycles, simulate_fairness_collapse,
      List.getLastD, abs_le]

/-- Claim C7, counterexample: at the negative input -1 the unmitigated
model does not fail — it falls through to the Phase-1 branch and returns an
ordinary sample with negative divergence. -/
theorem negative_cycle_returns_sample :
    simulate_fairness_collapse (-1) false =
      { cycle := -1, divergence := -21/2500, fairness := 193/200 } := by
  norm_num [simulate_fairness_collapse]

/-- Claim C7, amended: the model raises no error at all; every negative
integer input satisfies the `cycle_num <= 50` test and is extrapolated by
the Phase-1 formulas. -/
theorem negative_cycle_extrapolates_phase1 (z : ℤ) (hz : z < 0) :
    simulate_fairness_collapse z false =
      { cycle := z, divergence := (z : ℚ) * 0.0084,
        fairness := 0.96 - (z : ℚ) * 0.005 } :=
  sfc_phase1_eq (by omega) (by omega)

/-- Witness for the amended C7 theorem at the concrete input -2. -/
theorem negative_cycle_extrapolates_phase1_witness :
    (-2 : ℤ) < 0 ∧
    simulate_fairness_collapse (-2) false =
      { cycle := -2, divergence := -21/1250, fairness := 97/100 } :=
  ⟨by norm_num, by rw [negative_cycle_extrapolates_phase1 (-2) (by norm_num)]; norm_num⟩

/-- Claim C8: the selector (Python `max` keyed on throughput) yields no
result on the empty list, and on a non-empty list returns the first element
attaining the maximal throughput: everything strictly before it has smaller
throughput, everything after it no larger throughput. -/
theorem select_spec :
    pymax (fun r : HorizonResult => r.throughput) [] = none ∧
    ∀ l : List HorizonResult, l ≠ [] →
      ∃ m l₁ l₂, pymax (fun r : HorizonResult => r.throughput) l = some m ∧
        l = l₁ ++ m :: l₂ ∧
        (∀ y ∈ l₁, y.throughput < m.throughput) ∧
        (∀ y ∈ l₂, y.throughput ≤ m.throughput) := by
  refine ⟨rfl, ?_⟩
  intro l hl
  exact pymax_spec (fun r : HorizonResult => r.throughput) l hl

/-- Witness for C8 on a concrete two-element list with tied throughputs. -/
theorem select_spec_witness :
    ([tie_sample_a, tie_sample_b] : List HorizonResult) ≠ [] ∧
    ∃ m l₁ l₂,
      pymax (fun r : HorizonResult => r.throughput) [tie_sample_a, tie_sample_b] =
        some m ∧
      [tie_sample_a, tie_sample_b] = l₁ ++ m :: l₂ ∧
      (∀ y ∈ l₁, y.throughput < m.throughput) ∧
      (∀ y ∈ l₂, y.throughput ≤ m.throughput) :=
  ⟨by simp, select_spec.2 [tie_sample_a, tie_sample_b] (by simp)⟩

/-- Claim C9: the unmitigated fairness is non-increasing over the whole
non-negative domain, the phase boundaries at 0, 50 and 65 included. -/
theorem unmitigated_fairness_antitone (c1 c2 : ℕ) (h : c1 < c2) :
    (simulate_fairness_collapse (c2 : ℤ) false).fairness ≤
      (simulate_fairness_collapse (c1 : ℤ) false).fairness := by
  have anti : Antitone fun n : ℕ =>
      (simulate_fairness_collapse (n : ℤ) false).fairness := by
    apply antitone_nat_of_succ_le
    intro n
    have hstep := fairness_succ_le (z := (n : ℤ)) (Int.natCast_nonneg n)
    have hc : ((n : ℤ) + 1) = ((n + 1 : ℕ) : ℤ) := by push_cast; ring
    rw [hc] at hstep
    exact hstep
  exact anti (le_of_lt h)

/-- Witness for C9 at the concrete pair (0, 100). -/
theorem unmitigated_fairness_antitone_witness :
    (0 : ℕ) < 100 ∧
    (simulate_fairness_collapse ((100 : ℕ) : ℤ) false).fairness ≤
      (simulate_fairness_collapse ((0 : ℕ) : ℤ) false).fairness :=
  ⟨by norm_num, unmitigated_fairness_antitone 0 100 (by norm_num)⟩

/-- Claim C10: at every non-negative cycle the mitigated fairness is at
least the unmitigated fairness, with equality exactly at cycle 0. -/
theorem mitigated_fairness_dominates (c : ℕ) :
    (simulate_fairness_collapse (c : ℤ) false).fairness ≤
      (simulate_fairness_collapse (c : ℤ) true).fairness ∧
    ((simulate_fairness_collapse (c : ℤ) false).fairness =
        (simulate_fairness_collapse (c : ℤ) true).fairness ↔ c = 0) := by
  rcases Nat.eq_zero_or_pos c with rfl | hc
  · refine ⟨?_, ?_⟩
    · rw [Nat.cast_zero, sfc_cycle0_eq, sfc_mitigated_eq]
      norm_num
    · refine ⟨fun _ => rfl, fun _ => ?_⟩
      rw [Nat.cast_zero, sfc_cycle0_eq, sfc_mitigated_eq]
      norm_num
  · have hlt : (simulate_fairness_collapse (c : ℤ) false).fairness <
        (simulate_fairness_collapse (c : ℤ) true).fairness := by
      rw [sfc_mitigated_eq]
      dsimp only
      by_cases h50 : (c : ℤ) ≤ 50
      · rw [sfc_phase1_eq (by omega) h50]
        dsimp only
        push_cast
        have h1 : (1 : ℚ) ≤ (c : ℚ) := by exact_mod_cast hc
        have h2 : (0.96 : ℚ) - (c : ℚ) * 0.005 < 0.96 - (c : ℚ) * 0.0005 := by
          linarith
        exact lt_of_lt_of_le h2 (le_max_left _ _)
      · by_cases h65 : (c : ℤ) ≤ 65
        · rw [sfc_phase2_eq (by omega) h65]
          dsimp only
          push_cast
          have h1 : (51 : ℚ) ≤ (c : ℚ) := by
            exact_mod_cast (by omega : 51 ≤ c)
          have h2 : (0.71 : ℚ) - ((c : ℚ) - 50) * 0.0153 < 0.90 := by linarith
          exact lt_of_lt_of_le h2 (le_max_right _ _)
        · rw [sfc_phase3_eq (by omega)]
          dsimp only
          push_cast
          have h1 : (66 : ℚ) ≤ (c : ℚ) := by
            exact_mod_cast (by omega : 66 ≤ c)
          refine lt_of_lt_of_le (max_lt ?_ ?_) (le_max_right _ _)
          · linarith
          · norm_num
    exact ⟨hlt.le, ⟨fun he => absurd he (ne_of_lt hlt),
      fun h0 => absurd h0 (Nat.pos_iff_ne_zero.mp hc)⟩⟩

end SatCC
